import Mathlib

/-!
Verification development for the alx-backend-python repository: a shallow
embedding of the Django REST messaging application (`messaging_app/chats`,
`Django-Middleware-0x03/chats`) and of the standalone scripts
(`python-context-async-perations-0x02`, `python-generators-0x00`), with
theorems settling the stated behavioural claims.

Conventions of the embedding:
* database tables are Lean lists of records, in query order;
* primary keys and datetimes are `Nat`, SQL integers are `Int`;
* an HTTP handler is a function from the application state and the request
  data to a status code paired with the successor state;
* fallible steps return `Option`/pairs with an error flag.
-/

namespace Spec2Proof

/-! ## `python-context-async-perations-0x02/3-concurrent.py`

A row of the sqlite `users` table (`SELECT *` returns rows in table order). -/

structure UserRow where
  id : Nat
  name : String
  age : Int
deriving Repr, DecidableEq

/-- `SELECT * FROM users` with an optional `WHERE age > a` clause, over a
fixed database state `db`. -/
def selectUsers (db : List UserRow) (ageGt : Option Int) : List UserRow :=
  match ageGt with
  | none => db
  | some a => db.filter (fun r => a < r.age)

/-- `async_fetch_users`: runs `SELECT * FROM users`. -/
def async_fetch_users (db : List UserRow) : List UserRow :=
  selectUsers db none

/-- `async_fetch_older_users`: runs `SELECT * FROM users WHERE age > 40`. -/
def async_fetch_older_users (db : List UserRow) : List UserRow :=
  selectUsers db (some 40)

/-- `fetch_concurrently`: `asyncio.gather` of the two independent read-only
queries against the unchanged database, returning both result lists. -/
def fetch_concurrently (db : List UserRow) : List UserRow × List UserRow :=
  (async_fetch_users db, async_fetch_older_users db)

/-- The two queries run one after the other on the same database state. -/
def fetch_sequentially (db : List UserRow) : List UserRow × List UserRow :=
  let users := async_fetch_users db
  let older := async_fetch_older_users db
  (users, older)

/-! ## `python-generators-0x00/2-lazy_paginate.py` -/

/-- `paginate_users(page_size, offset)`:
`SELECT * FROM user_data LIMIT page_size OFFSET offset`. -/
def paginate_users (table : List UserRow) (pageSize offset : Nat) : List UserRow :=
  (table.drop offset).take pageSize

/-- The loop of `lazy_pagination`, started at an arbitrary offset:
fetch a page; stop if it is empty; otherwise yield it and advance the
offset by `page_size`. -/
def lazyPaginateFrom (table : List UserRow) (pageSize offset : Nat) :
    List (List UserRow) :=
  if h : paginate_users table pageSize offset = [] then []
  else
    paginate_users table pageSize offset ::
      lazyPaginateFrom table pageSize (offset + pageSize)
termination_by table.length - offset
decreasing_by
  have hp : ¬ (table.drop offset).take pageSize = [] := h
  rw [List.take_eq_nil_iff] at hp
  push_neg at hp
  obtain ⟨hps, hdrop⟩ := hp
  have hlt : offset < table.length := by
    by_contra hge
    exact hdrop (List.drop_eq_nil_of_le (Nat.le_of_not_lt hge))
  exact Nat.sub_lt_sub_left hlt
    (Nat.lt_add_of_pos_right (Nat.pos_of_ne_zero hps))

/-- `lazy_pagination(page_size)`: the generator, collected to a list of
pages, starting at offset 0. -/
def lazy_pagination (table : List UserRow) (pageSize : Nat) :
    List (List UserRow) :=
  lazyPaginateFrom table pageSize 0

/-! ## `python-generators-0x00/4-stream_ages.py` -/

/-- `stream_user_ages`: yields the `age` column of every `user_data` row,
one at a time, in query order. -/
def stream_user_ages (table : List UserRow) : List Int :=
  table.map (fun r => r.age)

/-- `calculate_average_age`: folds the streamed ages into a running `total`
and `count`, then reports `total / count if count else 0`.  Numbers are
modelled exactly (rationals in place of Python floats). -/
def calculate_average_age (table : List UserRow) : ℚ :=
  let ages := stream_user_ages table
  let total : Int := ages.foldl (fun a b => a + b) 0
  let count : Nat := ages.length
  if count = 0 then 0 else (total : ℚ) / (count : ℚ)

/-! ## Data model of the messaging application

`chats/models.py` (the copy under
`Django-Middleware-0x03/Django-Middleware-0x03/chats/`, which is the one
present in the repository; `messaging_app/chats/views.py` imports the
identically named models).  UUID keys are modelled as `Nat`. -/

structure DUser where
  userId : Nat
  username : String
  email : String
  password : String
  firstName : String
  lastName : String
  isSuperuser : Bool
  isActive : Bool
deriving Repr, DecidableEq

structure Conversation where
  conversationId : Nat
  /-- the many-to-many `participants` relation, as a list of user ids -/
  participants : List Nat
deriving Repr, DecidableEq

structure Message where
  messageId : Nat
  sender : Nat
  conversation : Nat
  messageBody : String
  sentAt : Nat
deriving Repr, DecidableEq

/-- The relational state the views operate on. -/
structure AppState where
  users : List DUser
  conversations : List Conversation
  messages : List Message
deriving Repr, DecidableEq

def findUser (st : AppState) (uid : Nat) : Option DUser :=
  st.users.find? (fun u => u.userId == uid)

def findConv (st : AppState) (cid : Nat) : Option Conversation :=
  st.conversations.find? (fun c => c.conversationId == cid)

def findMsg (st : AppState) (mid : Nat) : Option Message :=
  st.messages.find? (fun m => m.messageId == mid)

/-- `conversation.participants.filter(user_id=uid).exists()`. -/
def isParticipant (st : AppState) (cid uid : Nat) : Bool :=
  match findConv st cid with
  | some c => c.participants.contains uid
  | none => false

/-! ## `messaging_app/chats/views.py` — `MessageViewSet`

`get_queryset`: messages of conversations in which the requesting user
participates (the descending sent-at presentation order is elided: no
claim depends on list order of this queryset). -/

def messageGetQueryset (st : AppState) (uid : Nat) : List Message :=
  st.messages.filter (fun m => isParticipant st m.conversation uid)

/-- `MessageViewSet.update` (PUT/PATCH): `get_object` looks the message up
in the filtered queryset (`404` when absent), DRF then checks the object
permissions `IsParticipantOfConversation` and `IsMessageSender`
(`chats/permissions.py`; write methods demand sender ∧ participant,
failing with `403`), and the view body re-checks
`message.sender != request.user` (`403`) before saving the new body.
Returns the HTTP status and the successor state. -/
def messageUpdate (st : AppState) (uid mid : Nat) (newBody : String) :
    Nat × AppState :=
  match (messageGetQueryset st uid).find? (fun m => m.messageId == mid) with
  | none => (404, st)
  | some m =>
    if ¬ isParticipant st m.conversation uid then (403, st)
    else if m.sender ≠ uid then (403, st)
    else
      (200, { st with
        messages := st.messages.map (fun x =>
          if x.messageId == mid then { x with messageBody := newBody } else x) })

/-- `MessageViewSet.destroy` (DELETE): same access path as `update`, then
deletes the row. -/
def messageDestroy (st : AppState) (uid mid : Nat) : Nat × AppState :=
  match (messageGetQueryset st uid).find? (fun m => m.messageId == mid) with
  | none => (404, st)
  | some m =>
    if ¬ isParticipant st m.conversation uid then (403, st)
    else if m.sender ≠ uid then (403, st)
    else
      (200, { st with
        messages := st.messages.filter (fun x => ¬ x.messageId == mid) })

/-! ### `MessageViewSet.create` -/

/-- The POST body for message creation (absent keys are `none`). -/
structure MessagePayload where
  sender : Option Nat
  conversation : Option Nat
  messageBody : Option String
deriving Repr, DecidableEq

/-- `MessageCreateSerializer.is_valid`: `sender`, `conversation` and
`message_body` are required model fields (the related ids must exist, the
body must be non-blank), and `validate` demands that the sender named in
the payload is a participant of the conversation it names.  Returns the validated
`(sender, conversation, body)` triple, or `none` for a `400`. -/
def messageCreateValidate (st : AppState) (p : MessagePayload) :
    Option (Nat × Nat × String) :=
  match p.sender, p.conversation, p.messageBody with
  | some s, some c, some b =>
    if (findUser st s).isSome && (findConv st c).isSome && !(b == "")
        && isParticipant st c s then
      some (s, c, b)
    else none
  | _, _, _ => none

/-- `MessageViewSet.create`: validates the payload
(`serializer.is_valid(raise_exception=True)` → `400` on failure), rejects
requesters that are not participants of the target conversation with
`403`, and otherwise saves the message with `sender=request.user`
(status `201`).  `newMid`/`now` stand for the fresh UUID and
`auto_now_add` timestamp. -/
def messageCreate (st : AppState) (uid : Nat) (p : MessagePayload)
    (newMid now : Nat) : Nat × AppState :=
  match messageCreateValidate st p with
  | none => (400, st)
  | some (_, c, b) =>
    if ¬ isParticipant st c uid then (403, st)
    else
      (201, { st with
        messages := st.messages ++ [⟨newMid, uid, c, b, now⟩] })

/-! ## Conversation creation -/

/-- `ConversationViewSet.create` of `Django-Middleware-0x03/chats/views.py`:
`participants` is the raw id list from the request; the queryset resolves
it to the distinct existing users; a mismatch between the deduplicated id
list and the resolved users is rejected `400`, fewer than two resolved
users is rejected `400`, otherwise a conversation with exactly the
resolved users is created (`201`). -/
def conversationCreateMW (st : AppState) (ids : List Nat) (newCid : Nat) :
    Nat × AppState :=
  let resolved := st.users.filter (fun u => ids.contains u.userId)
  if ids.dedup.length ≠ resolved.length then (400, st)
  else if resolved.length < 2 then (400, st)
  else
    (201, { st with
      conversations := st.conversations ++
        [⟨newCid, resolved.map (fun u => u.userId)⟩] })

/-- `ConversationSerializer.validate_participant_ids` of
`messaging_app/chats/serializers.py`: only runs when `participant_ids` is
present (the field is declared `required=False`); demands at least two
entries and that every id resolves to an existing user (`count` of the
resolved queryset equals the length of the list). -/
def participantIdsValid (st : AppState) (l : List Nat) : Bool :=
  !(l.length < 2) &&
    (st.users.filter (fun u => l.contains u.userId)).length == l.length

/-- `ConversationViewSet.create` of `messaging_app/chats/views.py`:
validates via the serializer (`400` on failure), saves the conversation
with the resolved `participant_ids` (or none, when the field was omitted),
then adds the requesting user as a participant if absent (`201`). -/
def conversationCreateMA (st : AppState) (uid : Nat)
    (pids : Option (List Nat)) (newCid : Nat) : Nat × AppState :=
  match pids with
  | some l =>
    if participantIdsValid st l then
      let ps := (st.users.filter (fun u => l.contains u.userId)).map
        (fun u => u.userId)
      let ps2 := if ps.contains uid then ps else ps ++ [uid]
      (201, { st with conversations := st.conversations ++ [⟨newCid, ps2⟩] })
    else (400, st)
  | none =>
    (201, { st with conversations := st.conversations ++ [⟨newCid, [uid]⟩] })

/-! ## `Django-Middleware-0x03/chats/views.py` — `MessageViewSet.create` -/

/-- Password hashing (`set_password`/`check_password`): modelled as a fixed
injective encoding of the raw password. -/
def hashPassword (p : String) : String := "pbkdf2:" ++ p

/-- `RefreshToken.for_user(user)` rendered with `str(...)`: the JWT library
emits an opaque non-empty token string; modelled as a tagged encoding of
the user id. -/
def mkRefreshToken (uid : Nat) : String := "refresh." ++ toString uid

/-- `str(refresh.access_token)`. -/
def mkAccessToken (uid : Nat) : String := "access." ++ toString uid

/-- The POST body of `/api/auth/register/`. -/
structure RegPayload where
  username : Option String
  email : Option String
  firstName : Option String
  lastName : Option String
  password : Option String
deriving Repr, DecidableEq

/-- The data accepted by `UserSerializer.is_valid`. -/
structure RegData where
  username : String
  email : String
  firstName : String
  lastName : String
  password : String
deriving Repr, DecidableEq

/-- `UserSerializer.is_valid` (`messaging_app/chats/serializers.py`):
`username`, `email`, `first_name`, `last_name` and `password` are required
non-blank fields, the password has `min_length=8`, and `email` and
`username` are unique across the user table (email well-formedness beyond
non-blankness is elided). -/
def userSerializerValidate (st : AppState) (p : RegPayload) :
    Option RegData :=
  match p.username, p.email, p.firstName, p.lastName, p.password with
  | some un, some em, some fn, some ln, some pw =>
    if !(un == "") && !(em == "") && !(fn == "") && !(ln == "")
        && 8 ≤ pw.length
        && !(st.users.any (fun u => u.email == em))
        && !(st.users.any (fun u => u.username == un)) then
      some ⟨un, em, fn, ln, pw⟩
    else none
  | _, _, _, _, _ => none

/-- Response envelope of the auth endpoints; on success the JWT pair is
filled in, otherwise the token fields are empty and `user` is `none`. -/
structure AuthResponse where
  status : Nat
  access : String
  refresh : String
  user : Option Nat
deriving Repr, DecidableEq

/-- `register_user`: serializer validation (`400` on failure), then
`validate_password` — the configurable Django password validators, taken as
the parameter `pwOk` (`400` with details on failure) — then user creation
with hashed password and a `201` carrying the JWT pair and the serialized
user.  `newUid` stands for the fresh UUID. -/
def register_user (st : AppState) (p : RegPayload) (pwOk : String → Bool)
    (newUid : Nat) : AuthResponse × AppState :=
  match userSerializerValidate st p with
  | none => (⟨400, "", "", none⟩, st)
  | some d =>
    if pwOk d.password then
      let u : DUser :=
        ⟨newUid, d.username, d.email, hashPassword d.password,
          d.firstName, d.lastName, false, true⟩
      (⟨201, mkAccessToken newUid, mkRefreshToken newUid, some newUid⟩,
        { st with users := st.users ++ [u] })
    else (⟨400, "", "", none⟩, st)

/-! ## `Django-Middleware-0x03/chats/views.py` — `MessageFilter`

Field lookup on the `Message` model for datetime filters: Django resolves
the field name of the filter against the model fields and raises a
`FieldError` for an unknown name.  The only datetime column of `Message`
usable in a range filter is `sent_at`. -/
def messageDateField (fieldName : String) : Option (Message → Nat) :=
  if fieldName == "sent_at" then some (fun m => m.sentAt) else none

/-- Apply one datetime filter with comparator `cmp` against value `v`;
`none` models the `FieldError` raised for a `field_name` that does not
exist on the model. -/
def applyDateFilter (qs : List Message) (fieldName : String)
    (cmp : Nat → Nat → Bool) (v : Nat) : Option (List Message) :=
  match messageDateField fieldName with
  | some f => some (qs.filter (fun m => cmp (f m) v))
  | none => none

/-- `MessageFilter` restricted to its date-range filters, exactly as
declared in the source: `start_date` is a `gte` filter on `sent_at`, and
`end_date` is an `lte` filter on `send_at` (sic). -/
def message_filter (qs : List Message) (startDate endDate : Option Nat) :
    Option (List Message) :=
  let afterStart :=
    match startDate with
    | none => some qs
    | some s => applyDateFilter qs "sent_at" (fun a b => b ≤ a) s
  match afterStart, endDate with
  | none, _ => none
  | some q, none => some q
  | some q, some e => applyDateFilter q "send_at" (fun a b => a ≤ b) e

/-! ## `python-context-async-perations-0x02` — context managers

A sqlite connection: `committed` is the durable database, `pending` the
uncommitted changes of the open transaction; closing an open connection
without committing discards `pending` (rollback). -/

structure SConn where
  isOpen : Bool
  committed : List Nat
  pending : List Nat
deriving Repr, DecidableEq

def sqliteConnect (db : List Nat) : SConn := ⟨true, db, []⟩

def sqliteCommit (c : SConn) : SConn :=
  ⟨c.isOpen, c.committed ++ c.pending, []⟩

def sqliteClose (c : SConn) : SConn := ⟨false, c.committed, []⟩

/-- One statement executed through the cursor inside a with-block: either a
write of some rows, or a statement that raises an exception. -/
inductive SqlOp where
  | write (rows : List Nat)
  | fail
deriving Repr, DecidableEq

/-- Run the body of a with-block: execute statements until one raises;
returns the connection as mutated so far and whether an exception was
raised. -/
def runOps (c : SConn) : List SqlOp → SConn × Bool
  | [] => (c, false)
  | SqlOp.write rs :: rest => runOps ⟨c.isOpen, c.committed, c.pending ++ rs⟩ rest
  | SqlOp.fail :: _ => (c, true)

/-- `DatabaseConnection.__exit__` (and the textually identical
`ExecuteQuery.__exit__`): `if exc_type is None: commit()`, then
`close()`. -/
def dcExit (c : SConn) (excRaised : Bool) : SConn :=
  if excRaised then sqliteClose c else sqliteClose (sqliteCommit c)

/-- `with DatabaseConnection(db) as cursor: body` — `__enter__` opens the
connection, the body runs, and Python calls `__exit__` with the exception
info (the exception, if any, then propagates).  Returns the final
connection state. -/
def dcWith (db : List Nat) (body : List SqlOp) : SConn :=
  let c := sqliteConnect db
  let r := runOps c body
  dcExit r.1 r.2

/-- `with ExecuteQuery(db, query, params) as result: body` —
`__enter__` opens the connection and executes the query itself; when the
query raises, the with-statement never enters the block and `__exit__` is
NOT called, so the connection object is left as `__enter__` abandoned it.
Otherwise the body runs and `__exit__` fires as for
`DatabaseConnection`. -/
def eqWith (db : List Nat) (query : SqlOp) (body : List SqlOp) : SConn :=
  let c := sqliteConnect db
  match query with
  | SqlOp.fail => c
  | SqlOp.write rs =>
    let c1 : SConn := ⟨c.isOpen, c.committed, c.pending ++ rs⟩
    let r := runOps c1 body
    dcExit r.1 r.2

/-! ## Concrete fixtures used by witnesses and counterexamples -/

def exTable : List UserRow := [⟨1, "Ada", 30⟩, ⟨2, "Ben", 45⟩, ⟨3, "Cy", 50⟩]

def exAlice : DUser :=
  ⟨1, "alice", "alice@example.com", hashPassword "password123",
    "Alice", "A", false, true⟩

def exBob : DUser :=
  ⟨2, "bob", "bob@example.com", hashPassword "password123",
    "Bob", "B", false, true⟩

/-- A conversation (id 100) whose only participant is alice (id 1), holding
one message (id 10) sent by alice — the shape of the fixture in
`test_auth.py::PermissionsTestCase`. -/
def exState : AppState :=
  ⟨[exAlice, exBob], [⟨100, [1]⟩], [⟨10, 1, 100, "hello", 5⟩]⟩

/-- Like `exState`, but user 2 is also a participant of conversation 100
(still not the sender of message 10). -/
def exState2 : AppState :=
  ⟨[exAlice, exBob], [⟨100, [1, 2]⟩], [⟨10, 1, 100, "hello", 5⟩]⟩

def exRegPayload : RegPayload :=
  ⟨some "carol", some "carol@example.com", some "Carol", some "C",
    some "password123"⟩

def exPwOk : String → Bool := fun s => decide (8 ≤ s.length)

def exMsgs : List Message :=
  [⟨10, 1, 100, "hello", 5⟩, ⟨11, 1, 100, "later", 9⟩]

/-! ## Helper lemmas -/

theorem mkAccessToken_ne_empty (uid : Nat) : mkAccessToken uid ≠ "" := by
  intro h
  have hl := congrArg String.length h
  simp [mkAccessToken, String.length_append] at hl
  exact absurd hl.1 (by decide)

theorem mkRefreshToken_ne_empty (uid : Nat) : mkRefreshToken uid ≠ "" := by
  intro h
  have hl := congrArg String.length h
  simp [mkRefreshToken, String.length_append] at hl
  exact absurd hl.1 (by decide)

theorem lazyPaginateFrom_flatten (t : List UserRow) (k : Nat) (hk : 1 ≤ k) :
    ∀ off, (lazyPaginateFrom t k off).flatten = t.drop off := by
  suffices H : ∀ n off, t.length - off = n →
      (lazyPaginateFrom t k off).flatten = t.drop off by
    exact fun off => H _ off rfl
  intro n
  induction n using Nat.strong_induction_on with
  | _ n ih =>
    intro off hoff
    rw [lazyPaginateFrom]
    split
    next hemp =>
      simp only [paginate_users, List.take_eq_nil_iff] at hemp
      rcases hemp with hk0 | hd
      · omega
      · simp [hd]
    next hemp =>
      have hoff_lt : off < t.length := by
        by_contra hge
        exact hemp (by
          simp [paginate_users, List.drop_eq_nil_of_le (Nat.le_of_not_lt hge)])
      have hrec := ih (t.length - (off + k)) (by omega) (off + k) rfl
      simp only [List.flatten_cons, hrec, paginate_users]
      have hdd : t.drop (off + k) = (t.drop off).drop k := by
        rw [List.drop_drop]
      rw [hdd, List.take_append_drop]

theorem lazyPaginateFrom_pages (t : List UserRow) (k : Nat) :
    ∀ off, ∀ p ∈ lazyPaginateFrom t k off, p ≠ [] ∧ p.length ≤ k := by
  suffices H : ∀ n off, t.length - off = n →
      ∀ p ∈ lazyPaginateFrom t k off, p ≠ [] ∧ p.length ≤ k by
    exact fun off => H _ off rfl
  intro n
  induction n using Nat.strong_induction_on with
  | _ n ih =>
    intro off hoff p hp
    rw [lazyPaginateFrom] at hp
    split at hp
    next => simp at hp
    next hemp =>
      rcases List.mem_cons.mp hp with rfl | htail
      · refine ⟨hemp, ?_⟩
        simp only [paginate_users, List.length_take]
        exact min_le_left _ _
      · have hoff_lt : off < t.length := by
          by_contra hge
          exact hemp (by
            simp [paginate_users, List.drop_eq_nil_of_le (Nat.le_of_not_lt hge)])
        have hk : k ≠ 0 := by
          intro hk0
          exact hemp (by simp [paginate_users, hk0])
        exact ih (t.length - (off + k)) (by omega) (off + k) rfl p htail

theorem lazyPaginateFrom_getElem (t : List UserRow) (k : Nat) :
    ∀ off i pg, (lazyPaginateFrom t k off)[i]? = some pg →
      pg = paginate_users t k (off + i * k) := by
  suffices H : ∀ n off, t.length - off = n →
      ∀ i pg, (lazyPaginateFrom t k off)[i]? = some pg →
        pg = paginate_users t k (off + i * k) by
    exact fun off => H _ off rfl
  intro n
  induction n using Nat.strong_induction_on with
  | _ n ih =>
    intro off hoff i pg hget
    rw [lazyPaginateFrom] at hget
    split at hget
    next => simp at hget
    next hemp =>
      have hoff_lt : off < t.length := by
        by_contra hge
        exact hemp (by
          simp [paginate_users, List.drop_eq_nil_of_le (Nat.le_of_not_lt hge)])
      have hk : k ≠ 0 := by
        intro hk0
        exact hemp (by simp [paginate_users, hk0])
      match i with
      | 0 =>
        simp at hget
        simp [← hget]
      | i + 1 =>
        simp only [List.getElem?_cons_succ] at hget
        have := ih (t.length - (off + k)) (by omega) (off + k) rfl i pg hget
        rw [this]
        congr 1
        ring

/-- `runOps` never touches the durable (`committed`) part of the
connection, nor its open flag. -/
theorem runOps_committed (ops : List SqlOp) :
    ∀ c : SConn, (runOps c ops).1.committed = c.committed ∧
      (runOps c ops).1.isOpen = c.isOpen := by
  induction ops with
  | nil => intro c; exact ⟨rfl, rfl⟩
  | cons op rest ih =>
    intro c
    cases op with
    | write rs => simpa [runOps] using ih ⟨c.isOpen, c.committed, c.pending ++ rs⟩
    | fail => exact ⟨rfl, rfl⟩

/-! ## Claims about the standalone scripts -/

/-- C7: `fetch_concurrently` returns the same pair of result lists as the
two queries run sequentially on the unchanged database, and the rows of
`async_fetch_older_users` are exactly the rows of `async_fetch_users`
whose `age` exceeds 40. -/
theorem fetch_concurrently_spec (db : List UserRow) :
    fetch_concurrently db = fetch_sequentially db ∧
    (fetch_concurrently db).2 =
      (fetch_concurrently db).1.filter (fun r => decide (40 < r.age)) := by
  exact ⟨rfl, rfl⟩

/-- C8: for `page_size ≥ 1`, `lazy_pagination` yields finitely many
non-empty pages of at most `page_size` rows, the `i`-th page being the
window fetched at offset `i * page_size`, and their concatenation is the
whole table in query order (termination is the totality of the model). -/
theorem lazy_pagination_spec (t : List UserRow) (k : Nat) (hk : 1 ≤ k) :
    (lazy_pagination t k).flatten = t ∧
    (∀ p ∈ lazy_pagination t k, p ≠ [] ∧ p.length ≤ k) ∧
    (∀ i pg, (lazy_pagination t k)[i]? = some pg →
      pg = paginate_users t k (i * k)) := by
  refine ⟨?_, ?_, ?_⟩
  · simpa [lazy_pagination] using lazyPaginateFrom_flatten t k hk 0
  · intro p hp
    exact lazyPaginateFrom_pages t k 0 p hp
  · intro i pg h
    simpa using lazyPaginateFrom_getElem t k 0 i pg h

/-- Witness for C8 at the three-row table with `page_size = 2`. -/
theorem lazy_pagination_spec_witness :
    1 ≤ 2 ∧
    ((lazy_pagination exTable 2).flatten = exTable ∧
     (∀ p ∈ lazy_pagination exTable 2, p ≠ [] ∧ p.length ≤ 2) ∧
     (∀ i pg, (lazy_pagination exTable 2)[i]? = some pg →
       pg = paginate_users exTable 2 (i * 2))) :=
  ⟨by decide, lazy_pagination_spec exTable 2 (by decide)⟩

/-- C10: `calculate_average_age` reports 0 on an empty stream of ages and
otherwise exactly the sum of the streamed ages divided by their count;
the division is only performed when the count is non-zero. -/
theorem calculate_average_age_spec (t : List UserRow) :
    (t = [] → calculate_average_age t = 0) ∧
    (t ≠ [] →
      (stream_user_ages t).length ≠ 0 ∧
      calculate_average_age t =
        ((stream_user_ages t).sum : ℚ) / ((stream_user_ages t).length : ℚ)) := by
  constructor
  · intro h
    simp [calculate_average_age, stream_user_ages, h]
  · intro h
    have hlen : (stream_user_ages t).length ≠ 0 := by
      simpa [stream_user_ages] using h
    refine ⟨hlen, ?_⟩
    simp only [calculate_average_age, hlen, if_false]
    rw [← List.sum_eq_foldl]

/-- Witness for C10 at the three-row table. -/
theorem calculate_average_age_spec_witness :
    (stream_user_ages exTable).length ≠ 0 ∧
    calculate_average_age exTable =
      ((stream_user_ages exTable).sum : ℚ) /
        ((stream_user_ages exTable).length : ℚ) :=
  (calculate_average_age_spec exTable).2 (by decide)

/-! ## Claims about the context managers and the message filter -/

/-- C9 counterexample: a failing query inside `ExecuteQuery.__enter__`
raises before the with-block is entered, so `__exit__` never runs and the
connection is left exactly as `__enter__` abandoned it — still open —
refuting the claim that the connection is closed on a query-execution
exception. -/
theorem executequery_enter_failure_leaves_conn_open :
    eqWith [1, 2] SqlOp.fail [] = ⟨true, [1, 2], []⟩ ∧
    (eqWith [1, 2] SqlOp.fail []).isOpen ≠ false := by
  decide

/-- C9 (amended): for both managers, whenever `__exit__` runs it closes the
connection, committing first exactly when the block raised no exception,
so a failed block persists nothing; but when the query execution inside
`ExecuteQuery.__enter__` raises, `__exit__` is not invoked: nothing is
committed (the database is unchanged) and the connection stays open. -/
theorem context_manager_exit_spec (db : List Nat) (body : List SqlOp)
    (rs : List Nat) :
    (dcWith db body).isOpen = false ∧
    ((runOps (sqliteConnect db) body).2 = false →
      (dcWith db body).committed =
        db ++ (runOps (sqliteConnect db) body).1.pending) ∧
    ((runOps (sqliteConnect db) body).2 = true →
      (dcWith db body).committed = db) ∧
    (eqWith db (SqlOp.write rs) body).isOpen = false ∧
    ((runOps ⟨true, db, rs⟩ body).2 = false →
      (eqWith db (SqlOp.write rs) body).committed =
        db ++ (runOps ⟨true, db, rs⟩ body).1.pending) ∧
    ((runOps ⟨true, db, rs⟩ body).2 = true →
      (eqWith db (SqlOp.write rs) body).committed = db) ∧
    eqWith db SqlOp.fail body = ⟨true, db, []⟩ := by
  have hdc := runOps_committed body (sqliteConnect db)
  have heq := runOps_committed body ⟨true, db, rs⟩
  refine ⟨?_, ?_, ?_, ?_, ?_, ?_, rfl⟩
  · simp only [dcWith, dcExit]
    split <;> simp [sqliteClose, sqliteCommit]
  · intro hno
    simp only [dcWith, dcExit, hno, Bool.false_eq_true, if_false,
      sqliteClose, sqliteCommit]
    simpa [sqliteConnect] using hdc.1
  · intro hyes
    simp only [dcWith, dcExit, hyes, if_true, sqliteClose]
    simpa [sqliteConnect] using hdc.1
  · simp only [eqWith, dcExit, sqliteConnect]
    split <;> simp [sqliteClose, sqliteCommit]
  · intro hno
    simpa [eqWith, dcExit, sqliteConnect, hno, sqliteClose, sqliteCommit]
      using heq.1
  · intro hyes
    simpa [eqWith, dcExit, sqliteConnect, hyes, sqliteClose, sqliteCommit]
      using heq.1

/-- Witness for C9 (amended): a committing run, a rolled-back run, and the
enter-failure run, all on the concrete database `[1, 2]`. -/
theorem context_manager_exit_spec_witness :
    (dcWith [1, 2] [SqlOp.write [3]]).isOpen = false ∧
    (dcWith [1, 2] [SqlOp.write [3]]).committed =
      [1, 2] ++ (runOps (sqliteConnect [1, 2]) [SqlOp.write [3]]).1.pending ∧
    (dcWith [1, 2] [SqlOp.write [3], SqlOp.fail]).committed = [1, 2] ∧
    eqWith [1, 2] SqlOp.fail [] = ⟨true, [1, 2], []⟩ := by
  refine ⟨(context_manager_exit_spec [1, 2] [SqlOp.write [3]] []).1,
    (context_manager_exit_spec [1, 2] [SqlOp.write [3]] []).2.1 (by decide),
    (context_manager_exit_spec [1, 2] [SqlOp.write [3], SqlOp.fail] []).2.2.1
      (by decide),
    (context_manager_exit_spec [1, 2] [] []).2.2.2.2.2.2⟩

/-- C6: the `start_date` filter does restrict the queryset to
`sent_at ≥ S`, but the `end_date` filter is declared on the nonexistent
model field `send_at`, so evaluating any request that supplies `end_date`
raises a `FieldError` (`none`) instead of returning the messages with
`sent_at ≤ E` — exercised here on a concrete queryset and `E = 7`. -/
theorem message_filter_end_date_field_error :
    message_filter exMsgs (some 6) none =
      some (exMsgs.filter (fun m => decide (6 ≤ m.sentAt))) ∧
    message_filter exMsgs none (some 7) = none ∧
    message_filter exMsgs none (some 7) ≠
      some (exMsgs.filter (fun m => decide (m.sentAt ≤ 7))) := by
  decide

/-! ## Claims about the message endpoints -/

/-- C1 counterexample: user 2 is authenticated and is not the sender of
message 10, yet the update request is answered with `404` — the message
lies outside the queryset of the non-participant — not with `403` as the claim
states. -/
theorem message_update_nonsender_not_403 :
    (∀ m ∈ exState.messages, m.messageId = 10 → m.sender ≠ 2) ∧
    (messageUpdate exState 2 10 "hijack").1 = 404 ∧
    (messageUpdate exState 2 10 "hijack").1 ≠ 403 := by
  decide

/-- C1 (amended): a PUT/PATCH/DELETE on message `mid` (message keys being
unique) by a user `uid` who is not its sender is rejected with the state
unchanged — with `403` exactly when the requester is a participant of the
conversation of the message (it is visible in their queryset), and with
`404` exactly when they are not — and `update` only ever changes the
message table when the requester is the sender of the addressed message,
so a message body is only ever modified by its sender. -/
theorem message_write_requires_sender (st : AppState) (uid mid : Nat)
    (newBody : String) (m : Message)
    (huniq : ∀ a ∈ st.messages, ∀ b ∈ st.messages,
      a.messageId = b.messageId → a = b)
    (hm : m ∈ st.messages) (hid : m.messageId = mid)
    (hns : m.sender ≠ uid) :
    (isParticipant st m.conversation uid = true →
      messageUpdate st uid mid newBody = (403, st) ∧
      messageDestroy st uid mid = (403, st)) ∧
    (isParticipant st m.conversation uid = false →
      messageUpdate st uid mid newBody = (404, st) ∧
      messageDestroy st uid mid = (404, st)) ∧
    (∀ st2 uid2 mid2 b2,
      (messageUpdate st2 uid2 mid2 b2).2.messages ≠ st2.messages →
      ∃ m2 ∈ st2.messages, m2.messageId = mid2 ∧ m2.sender = uid2) := by
  refine ⟨?_, ?_, ?_⟩
  · intro hpart
    have hqs : m ∈ messageGetQueryset st uid := by
      simp [messageGetQueryset, List.mem_filter, hm, hpart]
    cases hf : (messageGetQueryset st uid).find? (fun x => x.messageId == mid) with
    | none =>
      exfalso
      rw [List.find?_eq_none] at hf
      exact hf m hqs (by simp [hid])
    | some m2 =>
      have hm2id : m2.messageId = mid := by simpa using List.find?_some hf
      have hm2mem : m2 ∈ st.messages := by
        have h2 : m2 ∈ st.messages ∧
            isParticipant st m2.conversation uid = true := by
          simpa [messageGetQueryset, List.mem_filter] using
            List.mem_of_find?_eq_some hf
        exact h2.1
      obtain rfl : m2 = m := huniq m2 hm2mem m hm (by rw [hm2id, hid])
      constructor
      · simp only [messageUpdate, hf]
        rw [if_neg (by simp [hpart]), if_pos hns]
      · simp only [messageDestroy, hf]
        rw [if_neg (by simp [hpart]), if_pos hns]
  · intro hnpart
    have hf : (messageGetQueryset st uid).find?
        (fun x => x.messageId == mid) = none := by
      rw [List.find?_eq_none]
      intro x hx hpx
      have hx2 : x ∈ st.messages ∧
          isParticipant st x.conversation uid = true := by
        simpa [messageGetQueryset, List.mem_filter] using hx
      have hxid : x.messageId = mid := by simpa using hpx
      obtain rfl : x = m := huniq x hx2.1 m hm (by rw [hxid, hid])
      rw [hnpart] at hx2
      exact Bool.noConfusion hx2.2
    constructor
    · simp [messageUpdate, hf]
    · simp [messageDestroy, hf]
  · intro st2 uid2 mid2 b2 hch
    by_contra hno
    push_neg at hno
    apply hch
    cases hf : (messageGetQueryset st2 uid2).find? (fun x => x.messageId == mid2) with
    | none => simp [messageUpdate, hf]
    | some m3 =>
      have hid3 : m3.messageId = mid2 := by simpa using List.find?_some hf
      have hmm : m3 ∈ st2.messages := by
        have h2 : m3 ∈ st2.messages ∧
            isParticipant st2 m3.conversation uid2 = true := by
          simpa [messageGetQueryset, List.mem_filter] using
            List.mem_of_find?_eq_some hf
        exact h2.1
      have hs : m3.sender ≠ uid2 := hno m3 hmm hid3
      simp only [messageUpdate, hf]
      split <;> simp [hs]

/-- Witness for C1: in `exState2` user 2 is a participant of
conversation 100 but not the sender of message 10, so the rejection is
`403`; in `exState` user 2 is not a participant, so it is `404`. -/
theorem message_write_requires_sender_witness :
    (messageUpdate exState2 2 10 "x" = (403, exState2) ∧
      messageDestroy exState2 2 10 = (403, exState2)) ∧
    (messageUpdate exState 2 10 "x" = (404, exState) ∧
      messageDestroy exState 2 10 = (404, exState)) :=
  ⟨(message_write_requires_sender exState2 2 10 "x" ⟨10, 1, 100, "hello", 5⟩
      (by decide) (by decide) (by decide) (by decide)).1 (by decide),
    (message_write_requires_sender exState 2 10 "x" ⟨10, 1, 100, "hello", 5⟩
      (by decide) (by decide) (by decide) (by decide)).2.1 (by decide)⟩

/-- The validated conversation of `MessageCreateSerializer` is the one
named in the payload. -/
theorem messageCreateValidate_conversation (st : AppState)
    (p : MessagePayload) (s c : Nat) (b : String)
    (hv : messageCreateValidate st p = some (s, c, b)) :
    p.conversation = some c := by
  rcases hps : p.sender with _ | s0 <;>
    rcases hpc : p.conversation with _ | c0 <;>
      rcases hpb : p.messageBody with _ | b0 <;>
        simp only [messageCreateValidate, hps, hpc, hpb] at hv <;>
          try exact Option.noConfusion hv
  split at hv
  next =>
    obtain ⟨rfl, rfl, rfl⟩ : s0 = s ∧ c0 = c ∧ b0 = b := by
      simpa using hv
    rfl
  next => exact Option.noConfusion hv

/-- C2 counterexample: user 2 is not a participant of conversation 100,
but their creation request with an invalid payload (missing
`message_body`) is answered with `400`, not `403`. -/
theorem message_create_nonparticipant_not_403 :
    isParticipant exState 100 2 = false ∧
    (messageCreate exState 2 ⟨some 1, some 100, none⟩ 11 6).1 = 400 ∧
    (messageCreate exState 2 ⟨some 1, some 100, none⟩ 11 6).1 ≠ 403 := by
  decide

/-- C2 (amended): a message-creation request naming a conversation the
requester does not participate in is rejected — with `403` exactly when
the payload passes serializer validation and `400` exactly when it does
not — and in every case no `Message` row is created. -/
theorem message_create_nonparticipant_rejected (st : AppState) (uid : Nat)
    (p : MessagePayload) (newMid now c : Nat)
    (hc : p.conversation = some c)
    (hnp : isParticipant st c uid = false) :
    ((messageCreate st uid p newMid now).1 = 400 ∨
      (messageCreate st uid p newMid now).1 = 403) ∧
    (messageCreate st uid p newMid now).2 = st ∧
    (messageCreateValidate st p ≠ none →
      (messageCreate st uid p newMid now).1 = 403) ∧
    (messageCreateValidate st p = none →
      (messageCreate st uid p newMid now).1 = 400) := by
  cases hv : messageCreateValidate st p with
  | none =>
    refine ⟨Or.inl ?_, ?_, fun hne => absurd rfl hne, fun _ => ?_⟩ <;>
      simp [messageCreate, hv]
  | some trip =>
    obtain ⟨s, c2, b⟩ := trip
    have hc2 := messageCreateValidate_conversation st p s c2 b hv
    rw [hc] at hc2
    obtain rfl : c2 = c := (Option.some.inj hc2).symm
    have h403 : messageCreate st uid p newMid now = (403, st) := by
      simp [messageCreate, hv, hnp]
    exact ⟨Or.inr (by simp [h403]), by simp [h403], fun _ => by simp [h403],
      fun h => Option.noConfusion h⟩

/-- Witness for C2: the non-participant user 2 sends a serializer-valid
payload into conversation 100. -/
theorem message_create_nonparticipant_rejected_witness :
    (((messageCreate exState 2 ⟨some 1, some 100, some "hi"⟩ 11 6).1 = 400 ∨
      (messageCreate exState 2 ⟨some 1, some 100, some "hi"⟩ 11 6).1 = 403)) ∧
    (messageCreate exState 2 ⟨some 1, some 100, some "hi"⟩ 11 6).2 = exState ∧
    (messageCreateValidate exState ⟨some 1, some 100, some "hi"⟩ ≠ none →
      (messageCreate exState 2 ⟨some 1, some 100, some "hi"⟩ 11 6).1 = 403) ∧
    (messageCreateValidate exState ⟨some 1, some 100, some "hi"⟩ = none →
      (messageCreate exState 2 ⟨some 1, some 100, some "hi"⟩ 11 6).1 = 400) :=
  message_create_nonparticipant_rejected exState 2 ⟨some 1, some 100, some "hi"⟩
    11 6 100 rfl (by decide)

/-! ## Claims about conversation creation and registration -/

/-- C3 counterexample: a creation request through
the `messaging_app` ConversationViewSet that simply omits
`participant_ids` passes serializer validation (`required=False`) and
creates a conversation whose only participant is the requester — one
participant, status `201`, not `400`. -/
theorem conversation_create_without_ids_single_participant :
    (conversationCreateMA exState 1 none 200).1 = 201 ∧
    (conversationCreateMA exState 1 none 200).2.conversations =
      exState.conversations ++ [⟨200, [1]⟩] ∧
    ([1] : List Nat).length < 2 := by
  decide

/-- C3 (amended): both creation endpoints reject with `400`, creating
nothing, whenever the request supplies a participant list that resolves to
fewer than two distinct existing users; but a `messaging_app` request that
omits `participant_ids` entirely is accepted with `201` and creates a
conversation whose sole participant is the requester, so API-created
conversations with fewer than 2 participants are reachable. -/
theorem conversation_create_min_participants (st : AppState)
    (ids l : List Nat) (uid newCid : Nat)
    (hmw : (st.users.filter (fun u => ids.contains u.userId)).length < 2)
    (hma : (st.users.filter (fun u => l.contains u.userId)).length < 2) :
    conversationCreateMW st ids newCid = (400, st) ∧
    conversationCreateMA st uid (some l) newCid = (400, st) ∧
    conversationCreateMA st uid none newCid =
      (201, { st with conversations := st.conversations ++ [⟨newCid, [uid]⟩] }) := by
  refine ⟨?_, ?_, rfl⟩
  · simp only [conversationCreateMW]
    split <;> simp_all
  · have hval : participantIdsValid st l = false := by
      by_cases hl : l.length < 2
      · simp [participantIdsValid, hl]
      · have hb : ((st.users.filter (fun u => l.contains u.userId)).length ==
            l.length) = false :=
          beq_eq_false_iff_ne.mpr (by omega)
        unfold participantIdsValid
        rw [hb, Bool.and_false]
    simp [conversationCreateMA, hval]

/-- Witness for C3: the singleton id list `[1]` resolves to one user on
the fixture state. -/
theorem conversation_create_min_participants_witness :
    conversationCreateMW exState [1] 200 = (400, exState) ∧
    conversationCreateMA exState 1 (some [1]) 200 = (400, exState) ∧
    conversationCreateMA exState 1 none 200 =
      (201, { exState with
        conversations := exState.conversations ++ [⟨200, [1]⟩] }) :=
  conversation_create_min_participants exState [1] [1] 1 200
    (by decide) (by decide)

/-- The validated email of `UserSerializer` is the submitted one. -/
theorem userSerializerValidate_email (st : AppState) (p : RegPayload)
    (d : RegData) (hv : userSerializerValidate st p = some d) :
    p.email = some d.email := by
  rcases hu : p.username with _ | un <;>
    rcases he : p.email with _ | em <;>
      rcases hf : p.firstName with _ | fn <;>
        rcases hl : p.lastName with _ | ln <;>
          rcases hp : p.password with _ | pw <;>
            simp only [userSerializerValidate, hu, he, hf, hl, hp] at hv <;>
              try exact Option.noConfusion hv
  split at hv
  next =>
    injection hv with hv
    subst hv
    rfl
  next => exact Option.noConfusion hv

/-- C4: a registration whose payload passes serializer validation and
whose password passes password validation is answered `201` with a
non-empty access token, a non-empty refresh token and the serialized user,
and a user with the submitted email exists afterwards; a payload failing
either check is answered `400` and the user table is unchanged. -/
theorem register_user_spec (st : AppState) (p : RegPayload)
    (pwOk : String → Bool) (newUid : Nat) :
    (∀ d, userSerializerValidate st p = some d → pwOk d.password = true →
      (register_user st p pwOk newUid).1.status = 201 ∧
      (register_user st p pwOk newUid).1.access ≠ "" ∧
      (register_user st p pwOk newUid).1.refresh ≠ "" ∧
      (register_user st p pwOk newUid).1.user = some newUid ∧
      p.email = some d.email ∧
      ∃ u ∈ (register_user st p pwOk newUid).2.users, u.email = d.email) ∧
    (userSerializerValidate st p = none →
      (register_user st p pwOk newUid).1.status = 400 ∧
      (register_user st p pwOk newUid).2 = st) ∧
    (∀ d, userSerializerValidate st p = some d → pwOk d.password = false →
      (register_user st p pwOk newUid).1.status = 400 ∧
      (register_user st p pwOk newUid).2 = st) := by
  refine ⟨?_, ?_, ?_⟩
  · intro d hv hpw
    have hem := userSerializerValidate_email st p d hv
    have hr : register_user st p pwOk newUid =
        (⟨201, mkAccessToken newUid, mkRefreshToken newUid, some newUid⟩,
          { st with users := st.users ++
            [⟨newUid, d.username, d.email, hashPassword d.password,
              d.firstName, d.lastName, false, true⟩] }) := by
      simp [register_user, hv, hpw]
    rw [hr]
    exact ⟨rfl, mkAccessToken_ne_empty newUid, mkRefreshToken_ne_empty newUid,
      rfl, hem,
      ⟨⟨newUid, d.username, d.email, hashPassword d.password,
        d.firstName, d.lastName, false, true⟩, by simp, rfl⟩⟩
  · intro hv
    simp [register_user, hv]
  · intro d hv hpw
    simp [register_user, hv, hpw]

/-- Witness for C4: carol registers on the fixture state with a valid
payload and the length-8 password policy. -/
theorem register_user_spec_witness :
    (register_user exState exRegPayload exPwOk 3).1.status = 201 ∧
    (register_user exState exRegPayload exPwOk 3).1.access ≠ "" ∧
    (register_user exState exRegPayload exPwOk 3).1.refresh ≠ "" ∧
    (register_user exState exRegPayload exPwOk 3).1.user = some 3 ∧
    exRegPayload.email = some "carol@example.com" ∧
    ∃ u ∈ (register_user exState exRegPayload exPwOk 3).2.users,
      u.email = "carol@example.com" :=
  (register_user_spec exState exRegPayload exPwOk 3).1
    ⟨"carol", "carol@example.com", "Carol", "C", "password123"⟩
    (by decide) (by decide)

/-! ## Claim about the error-status discipline -/

end Spec2Proof
